import Mathlib

/-!
Verification of the Capsule API (FastAPI time-locked message-sharing service).

This file gives a shallow embedding of the handlers in `main.py` together with
the data model of `models.py` / `schemas.py` and the file helpers in
`utils.py`, and proves the frozen claims about them.

Modelling conventions:
* `datetime` values are integers (UTC timestamps); the only operation the code
  performs on them is `<=`.
* The database session is a record of three lists (users, capsules, messages);
  `query(...).filter(...).first()` becomes `List.find?`, `db.add`/`commit`
  appends, `db.delete` filters, and the `cascade="all, delete-orphan"`
  relationship of `Capsule.messages` deletes the capsule's messages with it.
* The filesystem is the list of paths that currently exist.
* Uncaught Python exceptions (TypeError from `os.path.exists(None)`,
  AttributeError from touching a missing relationship, IO errors from a failed
  upload, IntegrityError from a violated unique column) are error constructors
  distinct from the handler-raised HTTP errors.
* Python truthiness of an optional string (`if not text`, `if msg.filename`)
  is `none` or the empty string being falsy.
-/

namespace CapsuleApi

/-- A row of the `users` table (`models.py`). -/
structure User where
  id : Nat
  firstname : String
  lastname : String
  phone : String
  email : Option String
  hashed_password : String
  is_admin : Bool
deriving Repr, DecidableEq

/-- A row of the `capsules` table (`models.py`). -/
structure Capsule where
  id : Nat
  name : String
  reveal_date : Int
  owner_id : Nat
  notify_on_create : Bool
  recipient_phone : String
deriving Repr, DecidableEq

/-- A row of the `messages` table (`models.py`). -/
structure Message where
  id : Nat
  capsule_id : Nat
  creator_id : Nat
  filename : Option String
  text : Option String
  created_at : Int
deriving Repr, DecidableEq

/-- The persistent store visible to a request handler. -/
structure DB where
  users : List User
  capsules : List Capsule
  messages : List Message
deriving Repr, DecidableEq

/-- Outcomes of a handler: the HTTP errors it raises itself, plus the
uncaught Python/storage exceptions a run can end in. -/
inductive ApiError where
  | notFound        -- HTTPException 404
  | forbidden       -- HTTPException 403
  | unprocessable   -- HTTPException 422
  | conflict        -- HTTPException 400 (duplicate unique field)
  | typeError       -- uncaught TypeError (e.g. os.path.exists(None))
  | attributeError  -- uncaught AttributeError (missing relationship row)
  | integrityError  -- storage-level unique-constraint violation at commit
  | ioError         -- uncaught IO failure while writing an upload
deriving Repr, DecidableEq

/-- `schemas.py` `UserCreate`: the registration request body.  `is_admin`
is an ordinary body field defaulting to false. -/
structure UserCreate where
  firstname : String
  lastname : String
  phone : String
  email : Option String
  password : String
  is_admin : Bool
deriving Repr, DecidableEq

/-- `schemas.py` `MessageOut`: the message representation returned to
clients. -/
structure MessageOut where
  id : Nat
  user_id : Nat
  text : Option String
  filename : Option String
  time : Int
deriving Repr, DecidableEq

/-- `schemas.py` `CapsuleOut`: the capsule representation returned to
clients, carrying the filtered message list. -/
structure CapsuleOut where
  id : Nat
  name : String
  reveal_date : Int
  owner_id : Nat
  recipient_phone : String
  notify_on_create : Bool
  messages : List MessageOut
deriving Repr, DecidableEq

/-- An uploaded multipart file as the handlers see it: the client-supplied
filename (its bytes are irrelevant to every claim). -/
structure UploadPart where
  filename : String
deriving Repr, DecidableEq

/-- Python truthiness of an optional string: `None` and `""` are falsy. -/
def optStrTruthy : Option String → Bool
  | none => false
  | some s => s != ""

/-- `auth.hash_password`, abstract: the claims only need it to be a function
of the password. -/
def hash_password (p : String) : String := "$2b$" ++ p

/-- `utils.delete_file`: remove the path if it exists (idempotent). -/
def delete_file (fs : List String) (filename : String) : List String :=
  if fs.contains filename then fs.erase filename else fs

/-- The messages of a capsule (`Capsule.messages` relationship). -/
def capsuleMessages (db : DB) (c : Capsule) : List Message :=
  db.messages.filter (fun m => m.capsule_id == c.id)

/-- Build the `MessageOut` the handlers return (`main.py` constructs it with
`user_id=m.creator_id`, `time=m.created_at`). -/
def toMessageOut (m : Message) : MessageOut :=
  { id := m.id, user_id := m.creator_id, text := m.text,
    filename := m.filename, time := m.created_at }

/-- The per-message visibility condition, exactly the boolean expression of
`get_capsule` lines 190–195 and `get_message` lines 325–330 of `main.py`
(the two sites are textually identical). -/
def msgVisibleCond (u : User) (capsule : Capsule) (m : Message) (now : Int) : Bool :=
  u.is_admin
  || m.creator_id == u.id
  || (capsule.owner_id == u.id && decide (capsule.reveal_date ≤ now))
  || (capsule.recipient_phone == u.phone && decide (capsule.reveal_date ≤ now))

/-- The spec's reveal predicate, stated in its own words:
`revealed(capsule, now) := capsule.reveal_date <= now`.  Kept separate from
the code's condition so the two can be compared. -/
def revealed (c : Capsule) (now : Int) : Bool := decide (c.reveal_date ≤ now)

/-- `main.py` `get_capsule`: fetch a capsule, 404 if absent, 403 for a
requester who is neither admin nor owner nor recipient, then return the
capsule with its messages filtered by the visibility condition. -/
def get_capsule (db : DB) (capsule_id : Nat) (current_user : User) (now : Int) :
    Except ApiError CapsuleOut :=
  match db.capsules.find? (fun c => c.id == capsule_id) with
  | none => .error .notFound
  | some capsule =>
    if !current_user.is_admin
        && !(capsule.owner_id == current_user.id
             || capsule.recipient_phone == current_user.phone) then
      .error .forbidden
    else
      .ok { id := capsule.id, name := capsule.name,
            reveal_date := capsule.reveal_date, owner_id := capsule.owner_id,
            recipient_phone := capsule.recipient_phone,
            notify_on_create := capsule.notify_on_create,
            messages :=
              ((capsuleMessages db capsule).filter
                (fun m => msgVisibleCond current_user capsule m now)).map toMessageOut }

/-- `main.py` `get_message`: fetch one message by (capsule_id, message_id),
404 if absent, then load the capsule (the code dereferences it without a
null check; a missing row would raise AttributeError) and either return the
message or raise 403 by the same visibility condition. -/
def get_message (db : DB) (capsule_id message_id : Nat) (current_user : User)
    (now : Int) : Except ApiError MessageOut :=
  match db.messages.find? (fun m => m.id == message_id && m.capsule_id == capsule_id) with
  | none => .error .notFound
  | some msg =>
    match db.capsules.find? (fun c => c.id == capsule_id) with
    | none => .error .attributeError
    | some capsule =>
      if !(msgVisibleCond current_user capsule msg now) then
        .error .forbidden
      else
        .ok (toMessageOut msg)

/-- `utils.upload_file`: write the stream to a fresh path under the upload
directory and return that path.  `newPath` stands for the generated
`uuid4().hex_filename` path and `uploadOk` for whether the write to disk
succeeds; a failed write raises (modelled `ioError`) and leaves no durable
new file. -/
def upload_file (fs : List String) (newPath : String) (uploadOk : Bool) :
    Except ApiError (String × List String) :=
  if uploadOk then .ok (newPath, fs ++ [newPath]) else .error .ioError

/-- `main.py` `create_user`: the unauthenticated registration endpoint.  The
handler itself rejects only a duplicate *phone* (HTTP 400); the commit is
then subject to the unique constraints of `models.py` (`phone` unique,
`email` unique), whose violation surfaces as a storage `integrityError`,
not as an HTTP status.  Returns the response (or error) together with the
resulting store. -/
def create_user (db : DB) (user : UserCreate) (next_id : Nat) :
    Except ApiError User × DB :=
  match db.users.find? (fun x => x.phone == user.phone) with
  | some _ => (.error .conflict, db)
  | none =>
    let db_user : User :=
      { id := next_id, firstname := user.firstname, lastname := user.lastname,
        phone := user.phone, email := user.email,
        hashed_password := hash_password user.password,
        is_admin := user.is_admin }
    if db.users.any (fun x =>
        x.phone == db_user.phone || (x.email.isSome && x.email == db_user.email)) then
      (.error .integrityError, db)
    else
      (.ok db_user, { db with users := db.users ++ [db_user] })

/-- Commit an in-place mutation of a message row (the ORM object found by
id is mutated and the session committed). -/
def commitMessage (db : DB) (mid : Nat) (newMsg : Message) : DB :=
  { db with messages := db.messages.map (fun x => if x.id == mid then newMsg else x) }

/-- `main.py` `create_message`: 422 when neither text nor file is supplied
(Python falsiness: empty text counts as absent), 404 when the capsule does
not exist, otherwise upload the file (if any) and insert the message. -/
def create_message (db : DB) (fs : List String) (capsule_id : Nat)
    (text : Option String) (file : Option UploadPart) (current_user : User)
    (next_id : Nat) (now : Int) (newPath : String) (uploadOk : Bool) :
    Except ApiError MessageOut × List String × DB :=
  if !optStrTruthy text && file.isNone then
    (.error .unprocessable, fs, db)
  else
    match db.capsules.find? (fun c => c.id == capsule_id) with
    | none => (.error .notFound, fs, db)
    | some _ =>
      match file with
      | none =>
        let msg : Message :=
          { id := next_id, capsule_id := capsule_id,
            creator_id := current_user.id, filename := none,
            text := text, created_at := now }
        (.ok (toMessageOut msg), fs, { db with messages := db.messages ++ [msg] })
      | some _ =>
        match upload_file fs newPath uploadOk with
        | .error e => (.error e, fs, db)
        | .ok (fp, fs1) =>
          let msg : Message :=
            { id := next_id, capsule_id := capsule_id,
              creator_id := current_user.id, filename := some fp,
              text := text, created_at := now }
          (.ok (toMessageOut msg), fs1, { db with messages := db.messages ++ [msg] })

/-- `main.py` `update_message`: 422 on an empty request, 404 on a missing
message, 403 unless the requester is the creator or an admin; then the text
is replaced when given, and when a file with a non-empty client filename is
given the OLD file is deleted FIRST and the new one uploaded AFTERWARDS
(`main.py` lines 371–375); an upload failure therefore propagates after the
old file is already gone and before any commit. -/
def update_message (db : DB) (fs : List String) (capsule_id message_id : Nat)
    (text : Option String) (file : Option UploadPart) (current_user : User)
    (newPath : String) (uploadOk : Bool) :
    Except ApiError MessageOut × List String × DB :=
  if !optStrTruthy text && file.isNone then
    (.error .unprocessable, fs, db)
  else
    match db.messages.find? (fun m => m.id == message_id && m.capsule_id == capsule_id) with
    | none => (.error .notFound, fs, db)
    | some msg =>
      if msg.creator_id != current_user.id && !current_user.is_admin then
        (.error .forbidden, fs, db)
      else
        let msg1 := if text.isSome then { msg with text := text } else msg
        match file with
        | some f =>
          if f.filename != "" then
            let fs1 := match msg1.filename with
              | some old => if old != "" then delete_file fs old else fs
              | none => fs
            match upload_file fs1 newPath uploadOk with
            | .error e => (.error e, fs1, db)
            | .ok (fp, fs2) =>
              let msg2 := { msg1 with filename := some fp }
              (.ok (toMessageOut msg2), fs2, commitMessage db msg.id msg2)
          else
            (.ok (toMessageOut msg1), fs, commitMessage db msg.id msg1)
        | none =>
          (.ok (toMessageOut msg1), fs, commitMessage db msg.id msg1)

/-- `main.py` `delete_message`: 404 on a missing message, 403 unless the
requester is admin, the creator, or the owning capsule's owner
(`msg.capsule.owner_id`); the associated file is deleted only under the
`if msg.filename:` truthiness guard, then the row is removed. -/
def delete_message (db : DB) (fs : List String) (capsule_id message_id : Nat)
    (current_user : User) : Except ApiError Unit × List String × DB :=
  match db.messages.find? (fun m => m.id == message_id && m.capsule_id == capsule_id) with
  | none => (.error .notFound, fs, db)
  | some msg =>
    match db.capsules.find? (fun c => c.id == msg.capsule_id) with
    | none => (.error .attributeError, fs, db)
    | some cap =>
      if !(current_user.is_admin || msg.creator_id == current_user.id
            || cap.owner_id == current_user.id) then
        (.error .forbidden, fs, db)
      else
        let fs1 := match msg.filename with
          | some f => if f != "" then delete_file fs f else fs
          | none => fs
        (.ok (), fs1,
         { db with messages :=
             db.messages.filter (fun m => !(m.id == message_id && m.capsule_id == capsule_id)) })

/-- The file-removal loop of `main.py` `delete_capsule` lines 255–257:
`for msg in capsule.messages: if os.path.exists(msg.filename): os.remove(...)`.
`os.path.exists(None)` raises TypeError, which aborts the loop; the error
carries the filesystem state reached so far. -/
def deleteCapsuleFiles (fs : List String) :
    List Message → Except (ApiError × List String) (List String)
  | [] => .ok fs
  | m :: rest =>
    match m.filename with
    | none => .error (.typeError, fs)
    | some f =>
      if fs.contains f then deleteCapsuleFiles (fs.erase f) rest
      else deleteCapsuleFiles fs rest

/-- `main.py` `delete_capsule`: 404 on a missing capsule, 403 unless admin
or owner, then the file loop runs and — if it does not raise — the capsule
row is deleted, cascading to its messages (`models.py` `Capsule.messages`,
`cascade="all, delete-orphan"`).  An exception in the loop leaves the store
untouched. -/
def delete_capsule (db : DB) (fs : List String) (capsule_id : Nat)
    (current_user : User) : Except ApiError Unit × List String × DB :=
  match db.capsules.find? (fun c => c.id == capsule_id) with
  | none => (.error .notFound, fs, db)
  | some capsule =>
    if !(current_user.is_admin || capsule.owner_id == current_user.id) then
      (.error .forbidden, fs, db)
    else
      match deleteCapsuleFiles fs (capsuleMessages db capsule) with
      | .error (e, fs1) => (.error e, fs1, db)
      | .ok fs1 =>
        (.ok (), fs1,
         { db with
             capsules := db.capsules.filter (fun c => !(c.id == capsule_id)),
             messages := db.messages.filter (fun m => !(m.capsule_id == capsule_id)) })

/-- Decidable equality on handler outcomes, so concrete runs can be checked
by evaluation. -/
instance {ε α : Type} [DecidableEq ε] [DecidableEq α] : DecidableEq (Except ε α) := fun a b =>
  match a, b with
  | .ok x, .ok y =>
    if h : x = y then isTrue (by rw [h])
    else isFalse (by intro hh; injection hh; contradiction)
  | .error x, .error y =>
    if h : x = y then isTrue (by rw [h])
    else isFalse (by intro hh; injection hh; contradiction)
  | .ok _, .error _ => isFalse (fun hh => Except.noConfusion hh)
  | .error _, .ok _ => isFalse (fun hh => Except.noConfusion hh)

/-- Replace every capsule's reveal date (used to state that an authorization
decision is independent of reveal dates). -/
def setAllRevealDates (db : DB) (d : Int) : DB :=
  { db with capsules := db.capsules.map (fun c => { c with reveal_date := d }) }

/-! ### Concrete fixtures (used to instantiate universally quantified theorems) -/

/-- Fixture: owner of the test capsule. -/
def uOwner : User :=
  { id := 1, firstname := "Oli", lastname := "O", phone := "0611111111",
    email := some "owner@x.fr", hashed_password := "h1", is_admin := false }

/-- Fixture: registered recipient of the test capsule. -/
def uRecipient : User :=
  { id := 2, firstname := "Rae", lastname := "R", phone := "0622222222",
    email := some "rec@x.fr", hashed_password := "h2", is_admin := false }

/-- Fixture: an unrelated non-admin user. -/
def uOther : User :=
  { id := 3, firstname := "Eve", lastname := "E", phone := "0633333333",
    email := none, hashed_password := "h3", is_admin := false }

/-- Fixture: an administrator. -/
def uAdmin : User :=
  { id := 4, firstname := "Ada", lastname := "A", phone := "0644444444",
    email := none, hashed_password := "h4", is_admin := true }

/-- Fixture: a capsule owned by `uOwner`, addressed to `uRecipient`'s phone,
revealing at time 100. -/
def capW : Capsule :=
  { id := 1, name := "anniv", reveal_date := 100, owner_id := 1,
    notify_on_create := true, recipient_phone := "0622222222" }

/-- Fixture: a message by the owner carrying a file. -/
def mW1 : Message :=
  { id := 1, capsule_id := 1, creator_id := 1, filename := some "up/a.png",
    text := some "hello", created_at := 50 }

/-- Fixture: a second file-bearing message by the owner. -/
def mW2 : Message :=
  { id := 2, capsule_id := 1, creator_id := 1, filename := some "up/b.png",
    text := none, created_at := 60 }

/-- Fixture: a text-only message (no file). -/
def mWnone : Message :=
  { id := 3, capsule_id := 1, creator_id := 2, filename := none,
    text := some "txt", created_at := 70 }

/-- Fixture: store with the capsule and its two file-bearing messages. -/
def dbW : DB :=
  { users := [uOwner, uRecipient, uOther, uAdmin], capsules := [capW],
    messages := [mW1, mW2] }

/-- Fixture: store whose capsule holds a file message followed by a
text-only message. -/
def dbN : DB :=
  { users := [uOwner, uRecipient], capsules := [capW],
    messages := [mW1, mWnone] }

/-- Fixture: store holding only `uOwner` (for registration claims). -/
def dbU : DB := { users := [uOwner], capsules := [], messages := [] }

/-- Fixture: the filesystem holding the two stored files. -/
def fsW : List String := ["up/a.png", "up/b.png"]

/-- Fixture: empty store. -/
def emptyDB : DB := { users := [], capsules := [], messages := [] }

/-- Fixture: a registration request asking for `is_admin := true`. -/
def adminReq : UserCreate :=
  { firstname := "Ann", lastname := "N", phone := "0600000001",
    email := none, password := "pw", is_admin := true }

/-- Fixture: the user record `create_user` builds from `adminReq`. -/
def adminUser : User :=
  { id := 1, firstname := "Ann", lastname := "N", phone := "0600000001",
    email := none, hashed_password := hash_password "pw", is_admin := true }

/-- Fixture: a registration reusing `uOwner`'s phone. -/
def reqDupPhone : UserCreate :=
  { firstname := "Bob", lastname := "B", phone := "0611111111",
    email := some "bob@x.fr", password := "pw2", is_admin := false }

/-- Fixture: a registration with a fresh phone but `uOwner`'s email. -/
def reqDupEmail : UserCreate :=
  { firstname := "Cat", lastname := "C", phone := "0699999999",
    email := some "owner@x.fr", password := "pw3", is_admin := false }

/-! ### Theorems -/

/-- C3: `revealed(c, now)` is false strictly before `c.reveal_date` and true
at or after it (boundary inclusive), and the per-message read-authorization
condition used by both `get_capsule` and `get_message` tests the reveal date
exactly through this inclusive comparison. -/
theorem revealed_boundary_and_read_auth (c : Capsule) (now : Int) (u : User) (m : Message) :
    (revealed c now = false ↔ now < c.reveal_date)
    ∧ (revealed c now = true ↔ c.reveal_date ≤ now)
    ∧ revealed c c.reveal_date = true
    ∧ msgVisibleCond u c m now
        = (u.is_admin || m.creator_id == u.id
           || ((c.owner_id == u.id || c.recipient_phone == u.phone) && revealed c now)) := by
  refine ⟨?_, ?_, ?_, ?_⟩
  · simp [revealed]
  · simp [revealed]
  · simp [revealed]
  · cases ha : u.is_admin <;> cases hb : (m.creator_id == u.id)
      <;> cases hx : (c.owner_id == u.id) <;> cases hy : (c.recipient_phone == u.phone)
      <;> cases hd : (decide (c.reveal_date ≤ now))
      <;> simp [msgVisibleCond, revealed, ha, hb, hx, hy, hd]

/-- C9: registration copies the request's `is_admin` flag into the created
user verbatim, and in particular some unauthenticated registration request
yields a user with `is_admin = true`. -/
theorem create_user_copies_is_admin :
    (∀ (db : DB) (req : UserCreate) (nid : Nat) (u : User),
        (create_user db req nid).1 = .ok u → u.is_admin = req.is_admin)
    ∧ ∃ (db : DB) (req : UserCreate) (nid : Nat) (u : User),
        (create_user db req nid).1 = .ok u ∧ u.is_admin = true := by
  constructor
  · intro db req nid u hok
    unfold create_user at hok
    cases hfind : db.users.find? (fun x => x.phone == req.phone) with
    | some w => rw [hfind] at hok; exact Except.noConfusion hok
    | none =>
      rw [hfind] at hok
      dsimp only at hok
      split at hok
      · exact Except.noConfusion hok
      · injection hok with h
        rw [← h]
  · exact ⟨emptyDB, adminReq, 1, adminUser, rfl, rfl⟩

/-- C9 witness: applying the theorem to a concrete registration. -/
theorem create_user_copies_is_admin_witness :
    adminUser.is_admin = adminReq.is_admin :=
  create_user_copies_is_admin.1 emptyDB adminReq 1 adminUser rfl

/-- C2: for an existing message in an existing capsule, the single-message
read returns the message exactly when the visibility condition holds, and a
failing condition yields Forbidden (403) rather than an empty result. -/
theorem get_message_auth_iff
    (db : DB) (cid mid : Nat) (u : User) (now : Int) (msg : Message) (c : Capsule)
    (hm : db.messages.find? (fun m => m.id == mid && m.capsule_id == cid) = some msg)
    (hc : db.capsules.find? (fun x => x.id == cid) = some c) :
    (get_message db cid mid u now = .ok (toMessageOut msg)
        ↔ msgVisibleCond u c msg now = true)
    ∧ (msgVisibleCond u c msg now = false
        → get_message db cid mid u now = .error .forbidden) := by
  unfold get_message
  rw [hm, hc]
  cases h : msgVisibleCond u c msg now <;> simp [h]

/-- C2 witness: the recipient reads the owner's message at the reveal date. -/
theorem get_message_auth_iff_witness :
    get_message dbW 1 1 uRecipient 100 = .ok (toMessageOut mW1)
      ↔ msgVisibleCond uRecipient capW mW1 100 = true :=
  (get_message_auth_iff dbW 1 1 uRecipient 100 mW1 capW rfl rfl).1

/-- C1: when the capsule listing succeeds for a requester, a message of the
capsule appears in the response exactly when the visibility condition holds
for it, and every entry of the response is the faithful (unredacted) image
of some visible stored message. -/
theorem get_capsule_message_filter
    (db : DB) (cid : Nat) (u : User) (now : Int) (c : Capsule) (out : CapsuleOut)
    (hids : (db.messages.map Message.id).Nodup)
    (hc : db.capsules.find? (fun x => x.id == cid) = some c)
    (hok : get_capsule db cid u now = .ok out) :
    (∀ m ∈ capsuleMessages db c,
        (toMessageOut m ∈ out.messages ↔ msgVisibleCond u c m now = true))
    ∧ (∀ mo ∈ out.messages, ∃ m,
        m ∈ capsuleMessages db c ∧ msgVisibleCond u c m now = true
          ∧ mo = toMessageOut m) := by
  unfold get_capsule at hok
  rw [hc] at hok
  dsimp only at hok
  split at hok
  · exact Except.noConfusion hok
  · injection hok with h
    have hmsgs : out.messages
        = ((capsuleMessages db c).filter (fun m => msgVisibleCond u c m now)).map
            toMessageOut := by rw [← h]
    constructor
    · intro m hm
      rw [hmsgs]
      constructor
      · intro hmem
        rcases List.mem_map.mp hmem with ⟨m', hm', heq⟩
        rcases List.mem_filter.mp hm' with ⟨hm'mem, hvis⟩
        have hmdb : m ∈ db.messages := by
          have := hm; simp only [capsuleMessages] at this
          exact List.mem_of_mem_filter this
        have hm'db : m' ∈ db.messages := by
          simp only [capsuleMessages] at hm'mem
          exact List.mem_of_mem_filter hm'mem
        have hid : m'.id = m.id := congrArg MessageOut.id heq
        have hmm : m' = m := List.inj_on_of_nodup_map hids hm'db hmdb hid
        rw [← hmm]
        exact hvis
      · intro hvis
        exact List.mem_map_of_mem toMessageOut (List.mem_filter.mpr ⟨hm, hvis⟩)
    · intro mo hmo
      rw [hmsgs] at hmo
      rcases List.mem_map.mp hmo with ⟨m, hm, hqe⟩
      rcases List.mem_filter.mp hm with ⟨hmm, hvis⟩
      exact ⟨m, hmm, hvis, hqe.symm⟩

/-- C1 witness: the recipient's listing at the reveal date contains the
owner's message, which is indeed visible then. -/
theorem get_capsule_message_filter_witness :
    toMessageOut mW1 ∈
        (CapsuleOut.mk 1 "anniv" 100 1 "0622222222" true
          [toMessageOut mW1, toMessageOut mW2]).messages
      ↔ msgVisibleCond uRecipient capW mW1 100 = true :=
  (get_capsule_message_filter dbW 1 uRecipient 100 capW
      (CapsuleOut.mk 1 "anniv" 100 1 "0622222222" true
        [toMessageOut mW1, toMessageOut mW2])
      (by decide) rfl rfl).1 mW1 (by decide)

/-- Helper: when the authorization test of `update_message` passes, the
handler never answers Forbidden (it answers Ok or propagates an upload
failure). -/
theorem update_message_fst_not_forbidden
    (db : DB) (fs : List String) (cid mid : Nat) (text : Option String)
    (file : Option UploadPart) (u : User) (newPath : String) (uploadOk : Bool)
    (msg : Message)
    (hreq : (!optStrTruthy text && file.isNone) = false)
    (hm : db.messages.find? (fun m => m.id == mid && m.capsule_id == cid) = some msg)
    (hallow : (msg.creator_id != u.id && !u.is_admin) = false) :
    (update_message db fs cid mid text file u newPath uploadOk).1 ≠ .error .forbidden := by
  unfold update_message
  rw [hreq]
  simp only [Bool.false_eq_true, if_false]
  rw [hm]
  dsimp only
  rw [hallow]
  simp only [Bool.false_eq_true, if_false]
  rcases file with _ | f
  · simp
  · dsimp only
    split
    · cases uploadOk <;> simp [upload_file]
    · simp

/-- Helper: the result and filesystem effect of `update_message` do not
depend on the capsule table at all (the handler never reads it). -/
theorem update_message_fst_capsules_irrelevant
    (db : DB) (caps : List Capsule) (fs : List String) (cid mid : Nat)
    (text : Option String) (file : Option UploadPart) (u : User)
    (newPath : String) (uploadOk : Bool) :
    (update_message { db with capsules := caps } fs cid mid text file u newPath uploadOk).1
      = (update_message db fs cid mid text file u newPath uploadOk).1 := by
  unfold update_message
  dsimp only
  split
  · rfl
  · cases hfind : db.messages.find? (fun m => m.id == mid && m.capsule_id == cid) with
    | none => rfl
    | some msg =>
      dsimp only
      split
      · rfl
      · rcases file with _ | f
        · rfl
        · dsimp only
          split
          · cases uploadOk <;> simp [upload_file]
          · rfl

/-- Helper: the outcome of `delete_message` is unchanged when every
capsule's reveal date is replaced (the owner check reads only ids). -/
theorem delete_message_fst_reveal_irrelevant
    (db : DB) (fs : List String) (cid mid : Nat) (u : User) (d : Int) :
    (delete_message (setAllRevealDates db d) fs cid mid u).1
      = (delete_message db fs cid mid u).1 := by
  unfold delete_message
  dsimp only [setAllRevealDates]
  cases hfind : db.messages.find? (fun m => m.id == mid && m.capsule_id == cid) with
  | none => rfl
  | some msg =>
    dsimp only
    rw [@List.find?_map Capsule Capsule (fun c => c.id == msg.capsule_id)
        (fun c => { c with reveal_date := d }) db.capsules]
    have hcomp : ((fun c : Capsule => c.id == msg.capsule_id)
        ∘ (fun c => { c with reveal_date := d }))
        = (fun c : Capsule => c.id == msg.capsule_id) := rfl
    rw [hcomp]
    cases hcap : db.capsules.find? (fun c => c.id == msg.capsule_id) with
    | none => rfl
    | some cap =>
      dsimp only [Option.map]
      split <;> rfl

/-- C4: for an existing message (and a well-formed, non-empty update
request), updating is denied with Forbidden exactly when the requester is
neither admin nor the creator; deleting is denied with Forbidden exactly
when the requester is neither admin, nor the creator, nor the owning
capsule's owner; neither decision consults the current time (neither
embedded handler takes a clock) and both are invariant under changing every
capsule's reveal date (for update, even under replacing the whole capsule
table). -/
theorem message_write_delete_auth
    (db : DB) (fs : List String) (cid mid : Nat) (text : Option String)
    (file : Option UploadPart) (u : User) (newPath : String) (uploadOk : Bool)
    (msg : Message) (cap : Capsule)
    (hreq : (!optStrTruthy text && file.isNone) = false)
    (hm : db.messages.find? (fun m => m.id == mid && m.capsule_id == cid) = some msg)
    (hcap : db.capsules.find? (fun c => c.id == msg.capsule_id) = some cap) :
    ((update_message db fs cid mid text file u newPath uploadOk).1 = .error .forbidden
        ↔ ¬(u.is_admin = true ∨ msg.creator_id = u.id))
    ∧ ((delete_message db fs cid mid u).1 = .error .forbidden
        ↔ ¬(u.is_admin = true ∨ msg.creator_id = u.id ∨ cap.owner_id = u.id))
    ∧ (∀ caps : List Capsule,
        (update_message { db with capsules := caps } fs cid mid text file u newPath uploadOk).1
          = (update_message db fs cid mid text file u newPath uploadOk).1)
    ∧ (∀ d : Int,
        (delete_message (setAllRevealDates db d) fs cid mid u).1
          = (delete_message db fs cid mid u).1) := by
  refine ⟨?_, ?_, ?_, ?_⟩
  · cases hdeny : (msg.creator_id != u.id && !u.is_admin) with
    | true =>
      obtain ⟨h1, h2⟩ := Bool.and_eq_true_iff.mp hdeny
      refine iff_of_true ?_ ?_
      · unfold update_message
        rw [hreq]
        simp only [Bool.false_eq_true, if_false]
        rw [hm]
        dsimp only
        rw [hdeny]
        rfl
      · intro hor
        rcases hor with h | h
        · rw [h] at h2
          exact Bool.noConfusion h2
        · rw [h] at h1
          simp at h1
    | false =>
      have halt : u.is_admin = true ∨ msg.creator_id = u.id := by
        rcases Bool.and_eq_false_iff.mp hdeny with h | h
        · right; simpa using h
        · left; simpa using h
      exact iff_of_false
        (update_message_fst_not_forbidden db fs cid mid text file u newPath uploadOk
          msg hreq hm hdeny)
        (not_not_intro halt)
  · unfold delete_message
    rw [hm]
    dsimp only
    rw [hcap]
    dsimp only
    cases hdeny : (u.is_admin || msg.creator_id == u.id || cap.owner_id == u.id) with
    | true =>
      refine iff_of_false ?_ ?_
      · simp
      · simp only [Bool.or_eq_true, beq_iff_eq] at hdeny
        exact not_not_intro (by tauto)
    | false =>
      refine iff_of_true ?_ ?_
      · rfl
      · simp only [Bool.or_eq_false_iff, beq_eq_false_iff_ne] at hdeny
        intro hor
        rcases hor with h | h | h
        · exact absurd h (by simp [hdeny.1.1])
        · exact hdeny.1.2 h
        · exact hdeny.2 h
  · intro caps
    exact update_message_fst_capsules_irrelevant db caps fs cid mid text file u newPath uploadOk
  · intro d
    exact delete_message_fst_reveal_irrelevant db fs cid mid u d
/-- C4 witness: an unrelated non-admin user is denied the update of the
owner's message. -/
theorem message_write_delete_auth_witness :
    (update_message dbW fsW 1 1 (some "x") none uOther "up/c.png" true).1 = .error .forbidden
      ↔ ¬(uOther.is_admin = true ∨ mW1.creator_id = uOther.id) :=
  (message_write_delete_auth dbW fsW 1 1 (some "x") none uOther "up/c.png" true
      mW1 capW (by decide) rfl rfl).1

/-- C5 counterexample: with `uOwner` registered, a registration reusing
`uOwner`'s email under a fresh phone does not fail with Conflict (400) —
the handler checks only the phone, and the duplicate email surfaces as a
storage integrity error instead. -/
theorem create_user_email_duplicate_cex :
    uOwner ∈ dbU.users
    ∧ reqDupEmail.email = uOwner.email
    ∧ create_user dbU reqDupEmail 9 = (.error .integrityError, dbU)
    ∧ (create_user dbU reqDupEmail 9).1 ≠ .error .conflict := by
  refine ⟨by decide, by decide, by rfl, ?_⟩
  intro h
  rw [show (create_user dbU reqDupEmail 9).1
      = Except.error ApiError.integrityError from rfl] at h
  injection h with h2
  exact absurd h2 (by decide)

/-- C5 (amended): a registration whose phone duplicates an existing user's
fails with Conflict (400) and leaves the store unchanged; a registration
whose email duplicates an existing user's under a fresh phone is not
rejected by the handler and instead dies on the storage layer's unique
constraint (not a 400), also leaving the store — and hence the first
user — unchanged. -/
theorem create_user_duplicate_amended
    (db : DB) (req : UserCreate) (nid : Nat) (u1 : User)
    (h1 : u1 ∈ db.users) :
    (req.phone = u1.phone → create_user db req nid = (.error .conflict, db))
    ∧ (req.phone ∉ db.users.map User.phone → req.email.isSome = true →
        req.email = u1.email → create_user db req nid = (.error .integrityError, db)) := by
  constructor
  · intro hph
    unfold create_user
    cases hfind : db.users.find? (fun x => x.phone == req.phone) with
    | some w => rfl
    | none =>
      exfalso
      exact List.find?_eq_none.mp hfind u1 h1 (by simp [hph])
  · intro hfresh hsome heq
    unfold create_user
    have hnone : db.users.find? (fun x => x.phone == req.phone) = none := by
      apply List.find?_eq_none.mpr
      intro x hx hpx
      apply hfresh
      have hxp : x.phone = req.phone := by simpa using hpx
      rw [← hxp]
      exact List.mem_map_of_mem User.phone hx
    rw [hnone]
    dsimp only
    have hany : (db.users.any fun x =>
        x.phone == req.phone || (x.email.isSome && x.email == req.email)) = true := by
      apply List.any_eq_true.mpr
      refine ⟨u1, h1, ?_⟩
      have h2 : (u1.email.isSome && u1.email == req.email) = true := by
        rw [heq] at hsome
        rw [Bool.and_eq_true_iff]
        exact ⟨hsome, by simp [heq]⟩
      rw [h2, Bool.or_true]
    rw [hany]
    rfl

/-- C5 witness: a registration reusing `uOwner`'s phone is rejected with
Conflict and the store is unchanged. -/
theorem create_user_duplicate_amended_witness :
    create_user dbU reqDupPhone 9 = (.error .conflict, dbU) :=
  (create_user_duplicate_amended dbU reqDupPhone 9 uOwner (by decide)).1 rfl

/-- C8: creating a message with neither (Python-truthy) text nor a file
fails with Unprocessable (422) and changes nothing, while a request with
text, a file, or both (against an existing capsule, with the upload
succeeding) stores exactly one new message that satisfies the non-empty
invariant. -/
theorem create_message_nonempty
    (db : DB) (fs : List String) (cid : Nat) (text : Option String)
    (file : Option UploadPart) (u : User) (nid : Nat) (now : Int)
    (newPath : String) (c : Capsule)
    (hc : db.capsules.find? (fun x => x.id == cid) = some c) :
    ((optStrTruthy text = false ∧ file = none) →
       create_message db fs cid text file u nid now newPath true
         = (.error .unprocessable, fs, db))
    ∧ ((optStrTruthy text = true ∨ file.isSome = true) →
       ∃ msg : Message,
         (create_message db fs cid text file u nid now newPath true).1
             = .ok (toMessageOut msg)
         ∧ (create_message db fs cid text file u nid now newPath true).2.2.messages
             = db.messages ++ [msg]
         ∧ (optStrTruthy msg.text = true ∨ msg.filename.isSome = true)) := by
  constructor
  · rintro ⟨ht, rfl⟩
    unfold create_message
    rw [ht]
    rfl
  · intro hne
    have hguard : (!optStrTruthy text && file.isNone) = false := by
      rcases hne with h | h
      · simp [h]
      · rcases file with _ | f
        · simp at h
        · simp
    unfold create_message
    rw [hguard]
    simp only [Bool.false_eq_true, if_false]
    rw [hc]
    dsimp only
    rcases file with _ | f
    · refine ⟨{ id := nid, capsule_id := cid, creator_id := u.id, filename := none,
                text := text, created_at := now }, rfl, rfl, ?_⟩
      left
      rcases hne with h | h
      · exact h
      · simp at h
    · exact ⟨{ id := nid, capsule_id := cid, creator_id := u.id,
               filename := some newPath, text := text, created_at := now },
             rfl, rfl, Or.inr rfl⟩

/-- C8 witness: an empty request against the test capsule is rejected with
Unprocessable and nothing changes. -/
theorem create_message_nonempty_witness :
    create_message dbW fsW 1 none none uOther 9 0 "up/x.png" true
      = (.error .unprocessable, fsW, dbW) :=
  (create_message_nonempty dbW fsW 1 none none uOther 9 0 "up/x.png" capW rfl).1
    ⟨rfl, rfl⟩

/-- C6: deleting a capsule (as admin or owner) whose two messages each
reference a stored file removes both files, every message record of the
capsule, and the capsule record; fetching the capsule afterwards yields
NotFound. -/
theorem delete_capsule_removes_files_and_records
    (db : DB) (fs : List String) (cid : Nat) (u : User) (now : Int) (c : Capsule)
    (m1 m2 : Message) (f1 f2 : String)
    (hfs : fs.Nodup)
    (hc : db.capsules.find? (fun x => x.id == cid) = some c)
    (hauth : u.is_admin = true ∨ c.owner_id = u.id)
    (hmsgs : capsuleMessages db c = [m1, m2])
    (h1 : m1.filename = some f1) (h2 : m2.filename = some f2)
    (hf1 : f1 ∈ fs) (hf2 : f2 ∈ fs) :
    (delete_capsule db fs cid u).1 = .ok ()
    ∧ f1 ∉ (delete_capsule db fs cid u).2.1
    ∧ f2 ∉ (delete_capsule db fs cid u).2.1
    ∧ get_capsule (delete_capsule db fs cid u).2.2 cid u now = .error .notFound
    ∧ ∀ m ∈ (delete_capsule db fs cid u).2.2.messages, m.capsule_id ≠ cid := by
  have hguard : (!(u.is_admin || c.owner_id == u.id)) = false := by
    rcases hauth with h | h <;> simp [h]
  have hc1 : fs.contains f1 = true := List.elem_eq_true_of_mem hf1
  have hfnone : (db.capsules.filter (fun x => !(x.id == cid))).find?
      (fun x => x.id == cid) = none := by
    apply List.find?_eq_none.mpr
    intro x hx hpx
    have h := (List.mem_filter.mp hx).2
    rw [hpx] at h
    exact Bool.noConfusion h
  have hnf : get_capsule
      { users := db.users,
        capsules := db.capsules.filter (fun x => !(x.id == cid)),
        messages := db.messages.filter (fun m => !(m.capsule_id == cid)) } cid u now
      = .error .notFound := by
    unfold get_capsule
    dsimp only
    rw [hfnone]
  have hmfilter : ∀ m ∈ db.messages.filter (fun m => !(m.capsule_id == cid)),
      m.capsule_id ≠ cid := by
    intro m hm hq
    have h := (List.mem_filter.mp hm).2
    rw [hq] at h
    simp at h
  cases hcc : (fs.erase f1).contains f2 with
  | true =>
    have hr : delete_capsule db fs cid u
        = (.ok (), (fs.erase f1).erase f2,
           { users := db.users,
             capsules := db.capsules.filter (fun x => !(x.id == cid)),
             messages := db.messages.filter (fun m => !(m.capsule_id == cid)) }) := by
      unfold delete_capsule
      rw [hc]
      dsimp only
      rw [hguard]
      simp only [Bool.false_eq_true, if_false]
      rw [hmsgs]
      simp only [deleteCapsuleFiles, h1, h2, hc1, hcc, if_true]
    rw [hr]
    dsimp only
    refine ⟨rfl, ?_, ?_, hnf, hmfilter⟩
    · intro hmem
      exact hfs.not_mem_erase (List.mem_of_mem_erase hmem)
    · exact (hfs.erase f1).not_mem_erase
  | false =>
    have hr : delete_capsule db fs cid u
        = (.ok (), fs.erase f1,
           { users := db.users,
             capsules := db.capsules.filter (fun x => !(x.id == cid)),
             messages := db.messages.filter (fun m => !(m.capsule_id == cid)) }) := by
      unfold delete_capsule
      rw [hc]
      dsimp only
      rw [hguard]
      simp only [Bool.false_eq_true, if_false]
      rw [hmsgs]
      simp only [deleteCapsuleFiles, h1, h2, hc1, hcc, if_true, Bool.false_eq_true, if_false]
    rw [hr]
    dsimp only
    refine ⟨rfl, hfs.not_mem_erase, ?_, hnf, hmfilter⟩
    · intro hmem
      have h : (fs.erase f1).contains f2 = true := List.elem_eq_true_of_mem hmem
      rw [h] at hcc
      exact Bool.noConfusion hcc

/-- C6 witness: deleting the fixture capsule removes its two files and the
capsule is gone afterwards. -/
theorem delete_capsule_removes_files_and_records_witness :
    (delete_capsule dbW fsW 1 uOwner).1 = .ok ()
    ∧ "up/a.png" ∉ (delete_capsule dbW fsW 1 uOwner).2.1
    ∧ "up/b.png" ∉ (delete_capsule dbW fsW 1 uOwner).2.1
    ∧ get_capsule (delete_capsule dbW fsW 1 uOwner).2.2 1 uOwner 0 = .error .notFound :=
  have h := delete_capsule_removes_files_and_records dbW fsW 1 uOwner 0 capW mW1 mW2
    "up/a.png" "up/b.png" (by decide) rfl (Or.inr rfl) (by decide) rfl rfl
    (by decide) (by decide)
  ⟨h.1, h.2.1, h.2.2.1, h.2.2.2.1⟩

/-- C7: the update handler deletes the old file BEFORE writing the new one,
so a failed upload loses the old content: on the fixture, the failing run
ends in an IO error with the old file already gone and nothing committed,
while a succeeding run correctly leaves exactly the new file. -/
theorem update_message_file_replacement_bug :
    "up/a.png" ∈ fsW
    ∧ update_message dbW fsW 1 1 none (some ⟨"c.png"⟩) uOwner "up/c.png" false
        = (.error .ioError, ["up/b.png"], dbW)
    ∧ "up/a.png" ∉ (update_message dbW fsW 1 1 none (some ⟨"c.png"⟩) uOwner
        "up/c.png" false).2.1
    ∧ (update_message dbW fsW 1 1 none (some ⟨"c.png"⟩) uOwner "up/c.png" true).2.1
        = ["up/b.png", "up/c.png"] := by
  exact ⟨by decide, by rfl, by decide, by rfl⟩

/-- Helper: the file loop of `delete_capsule` raises TypeError whenever some
message of the list has no filename. -/
theorem deleteCapsuleFiles_typeError (l : List Message) :
    ∀ fs : List String, (∃ m ∈ l, m.filename = none) →
      ∃ fs1, deleteCapsuleFiles fs l = .error (.typeError, fs1) := by
  induction l with
  | nil =>
    intro fs h
    rcases h with ⟨m, hm, _⟩
    simp at hm
  | cons m rest ih =>
    intro fs h
    cases hmf : m.filename with
    | none => exact ⟨fs, by simp [deleteCapsuleFiles, hmf]⟩
    | some f =>
      have hrest : ∃ m' ∈ rest, m'.filename = none := by
        rcases h with ⟨m', hm', hn⟩
        rcases List.mem_cons.mp hm' with rfl | hm'
        · rw [hmf] at hn
          exact Option.noConfusion hn
        · exact ⟨m', hm', hn⟩
      unfold deleteCapsuleFiles
      rw [hmf]
      dsimp only
      split
      · exact ih (fs.erase f) hrest
      · exact ih fs hrest

/-- C10 counterexample: on a capsule whose file-bearing message precedes a
text-only message, `delete_capsule` raises TypeError, yet the first
message's file HAS been deleted — refuting the claim's "no record or file
is deleted". -/
theorem delete_capsule_none_filename_cex :
    ((capsuleMessages dbN capW).any (fun m => m.filename.isNone)) = true
    ∧ (delete_capsule dbN ["up/a.png"] 1 uOwner).1 = .error .typeError
    ∧ "up/a.png" ∈ (["up/a.png"] : List String)
    ∧ "up/a.png" ∉ (delete_capsule dbN ["up/a.png"] 1 uOwner).2.1 := by
  exact ⟨by decide, by rfl, by decide, by decide⟩

/-- C10 (amended): for any capsule containing a message with `filename`
None, `delete_capsule` (even for an admin or the owner) raises an uncaught
TypeError and deletes no database record — though files of messages
iterated before the offending one may already have been removed — while
the per-message delete path guards this case and succeeds without touching
the filesystem. -/
theorem delete_capsule_none_filename_amended
    (db : DB) (fs : List String) (cid : Nat) (u : User) (c : Capsule)
    (hc : db.capsules.find? (fun x => x.id == cid) = some c)
    (hauth : u.is_admin = true ∨ c.owner_id = u.id)
    (hnone : ∃ m ∈ capsuleMessages db c, m.filename = none) :
    (delete_capsule db fs cid u).1 = .error .typeError
    ∧ (delete_capsule db fs cid u).2.2 = db
    ∧ ∀ mid msg cap,
        db.messages.find? (fun m => m.id == mid && m.capsule_id == cid) = some msg →
        msg.filename = none →
        db.capsules.find? (fun x => x.id == msg.capsule_id) = some cap →
        (u.is_admin = true ∨ msg.creator_id = u.id ∨ cap.owner_id = u.id) →
        (delete_message db fs cid mid u).1 = .ok ()
          ∧ (delete_message db fs cid mid u).2.1 = fs := by
  have hguard : (!(u.is_admin || c.owner_id == u.id)) = false := by
    rcases hauth with h | h <;> simp [h]
  obtain ⟨fs1, hfiles⟩ := deleteCapsuleFiles_typeError (capsuleMessages db c) fs hnone
  have hr : delete_capsule db fs cid u = (.error .typeError, fs1, db) := by
    unfold delete_capsule
    rw [hc]
    dsimp only
    rw [hguard]
    simp only [Bool.false_eq_true, if_false]
    rw [hfiles]
  refine ⟨by rw [hr], by rw [hr], ?_⟩
  intro mid msg cap hfm hmf hfc hallow
  have hg2 : (!(u.is_admin || msg.creator_id == u.id || cap.owner_id == u.id)) = false := by
    rcases hallow with h | h | h <;> simp [h]
  unfold delete_message
  rw [hfm]
  dsimp only
  rw [hfc]
  dsimp only
  rw [hg2]
  simp only [Bool.false_eq_true, if_false]
  rw [hmf]
  exact ⟨trivial, rfl⟩

/-- C10 witness: the amended behaviour on the fixture store. -/
theorem delete_capsule_none_filename_amended_witness :
    (delete_capsule dbN ["up/a.png"] 1 uOwner).1 = .error .typeError
    ∧ (delete_capsule dbN ["up/a.png"] 1 uOwner).2.2 = dbN :=
  have h := delete_capsule_none_filename_amended dbN ["up/a.png"] 1 uOwner capW rfl
    (Or.inr rfl) ⟨mWnone, by decide, rfl⟩
  ⟨h.1, h.2.1⟩

end CapsuleApi
